import Mathlib

/-!
Shallow embedding of `pyspectral/blackbody.py` (Planck radiation equation).

The module has two public operations, `blackbody_wn` (radiance by wavenumber)
and `blackbody` (radiance by wavelength).  Both coerce their scalar inputs to
length-1 arrays, build an (N x S) grid of radiances (N = number of flattened
temperature entries, S = number of spectral positions), mask entries whose
`arg2` value equals the sentinel -9, and reshape the grid according to the
coerced input shapes.

Numpy float64/float32 arithmetic is modelled by real arithmetic (the float32
downcast of the exponent argument before `np.exp` is the identity on this
model); `numpy.ma` masked entries are modelled by the `MVal.masked`
constructor.  Division follows Lean's convention `x / 0 = 0`, which is only
exercised at spectral position 0, a value no claim quantifies over.
-/

namespace Pyspectral

noncomputable section

open Classical

/-- Planck constant, `H_PLANCK = 6.62606957 * 1e-34` in blackbody.py. -/
def H_PLANCK : ℝ := 6.62606957 * 1e-34

/-- Boltzmann constant, `K_BOLTZMANN = 1.3806488 * 1e-23` in blackbody.py. -/
def K_BOLTZMANN : ℝ := 1.3806488 * 1e-23

/-- Speed of light, `C_SPEED = 2.99792458 * 1e8` in blackbody.py. -/
def C_SPEED : ℝ := 2.99792458 * 1e8

/-- Near-zero temperature threshold, `EPSILON = 0.000001` in blackbody.py. -/
def EPSILON : ℝ := 0.000001

/-- One cell of a `numpy.ma` masked array: either a computed radiance value
or a masked (invalid) entry. -/
inductive MVal where
  | masked : MVal
  | val : ℝ → MVal

instance : Inhabited MVal := ⟨MVal.masked⟩

/-- A spectral-position argument (`wavenumber` rsp. `wavel`): a scalar or a
1-D sequence, as accepted by the two functions. -/
inductive SpecInput where
  | scalar : ℝ → SpecInput
  | vec : List ℝ → SpecInput

/-- A temperature argument (`temp`): a scalar, a 1-D sequence or a 2-D grid. -/
inductive TempInput where
  | scalar : ℝ → TempInput
  | vec : List ℝ → TempInput
  | mat : List (List ℝ) → TempInput

/-- The possible return values of the two operations: a scalar entry
(`rad[0, 0]`), a 1-D, a 2-D or a 3-D masked array. -/
inductive BBOut where
  | scalar : MVal → BBOut
  | arr1 : List MVal → BBOut
  | arr2 : List (List MVal) → BBOut
  | arr3 : List (List (List MVal)) → BBOut

/-- Coercion of the spectral input:
`np.array([x, ])` if scalar, `np.array(xs)` otherwise. -/
def coerceSpec : SpecInput → List ℝ
  | .scalar x => [x]
  | .vec xs => xs

/-- Row-major flattening of the temperature input (the order in which
`arg2.reshape(-1, 1)` enumerates the temperature entries). -/
def tempFlat : TempInput → List ℝ
  | .scalar x => [x]
  | .vec xs => xs
  | .mat xss => xss.flatten

/-- `temperature.shape` of the coerced temperature array
(`(1,)` for a scalar, `(n,)` for a sequence, `(r, c)` for a 2-D grid). -/
def tempShape : TempInput → List ℕ
  | .scalar _ => [1]
  | .vec xs => [xs.length]
  | .mat xss => [xss.length, xss.headI.length]

/-- `arg2 = np.where(np.greater(np.abs(temperature), EPSILON),
np.array(1. / temperature), -9)`, one entry per temperature. -/
def arg2fun (t : ℝ) : ℝ := if EPSILON < |t| then 1 / t else -9

/-- `nom = 2 * H_PLANCK * (C_SPEED ** 2) * (wavnum ** 3)` in `blackbody_wn`. -/
def nomWn (nu : ℝ) : ℝ := 2 * H_PLANCK * C_SPEED ^ 2 * nu ^ 3

/-- `arg1 = H_PLANCK * C_SPEED * wavnum / K_BOLTZMANN` in `blackbody_wn`. -/
def arg1Wn (nu : ℝ) : ℝ := H_PLANCK * C_SPEED * nu / K_BOLTZMANN

/-- One grid entry of `blackbody_wn`: masked where `arg2 == -9`
(the `np.ma.masked_array` mask), otherwise
`rad = nom / (np.exp(arg1 * arg2) - 1)`. -/
def radEntryWn (t nu : ℝ) : MVal :=
  if arg2fun t = -9 then MVal.masked
  else MVal.val (nomWn nu / (Real.exp (arg1Wn nu * arg2fun t) - 1))

/-- `nom = const / wavelength ** 5` with `const = 2 * H_PLANCK * C_SPEED ** 2`
in `blackbody`. -/
def nomWl (lam : ℝ) : ℝ := 2 * H_PLANCK * C_SPEED ^ 2 / lam ^ 5

/-- `arg1 = H_PLANCK * C_SPEED / (K_BOLTZMANN * wavelength)` in `blackbody`. -/
def arg1Wl (lam : ℝ) : ℝ := H_PLANCK * C_SPEED / (K_BOLTZMANN * lam)

/-- One grid entry of `blackbody`: masked where `arg2 == -9`, otherwise
`rad = nom / (np.exp(arg1 * arg2) - 1)`. -/
def radEntryWl (t lam : ℝ) : MVal :=
  if arg2fun t = -9 then MVal.masked
  else MVal.val (nomWl lam / (Real.exp (arg1Wl lam * arg2fun t) - 1))

/-- The broadcast (N x S) grid of `blackbody_wn`: `rad[i, j]` pairs the i-th
flattened temperature (rows, from `arg2.reshape(-1, 1)`) with the j-th
wavenumber (columns). -/
def radGridWn (ts nus : List ℝ) : List (List MVal) :=
  ts.map fun t => nus.map fun nu => radEntryWn t nu

/-- The broadcast (N x S) grid of `blackbody`. -/
def radGridWl (ts lams : List ℝ) : List (List MVal) :=
  ts.map fun t => lams.map fun lam => radEntryWl t lam

/-- Row-major reshape helper: split a list into `a` consecutive chunks of
length `b` (`np.reshape` to a leading pair of axes `(a, b)`). -/
def takeChunks : ℕ → ℕ → List α → List (List α)
  | 0, _, _ => []
  | a + 1, b, xs => xs.take b :: takeChunks a b (xs.drop b)

/-- The return-shape dispatch shared textually by `blackbody_wn` and
`blackbody` (`if wavnum.shape[0] == 1: ...`):
* S == 1, `shape[0] == 1`  -> `rad[0, 0]`;
* S == 1, 1-D temperature  -> `rad[:, 0].reshape(shape)`;
* S == 1, 2-D temperature  -> `rad[:, 0].reshape(shape)` (an `(a, b)` array);
* S > 1, `shape[0] == 1`   -> `rad[0, :]`;
* S > 1, 1-D temperature   -> `np.reshape(rad, (shape[0], radshape[1]))`,
  the identity on the `(N, S)` grid since `N == shape[0]`;
* S > 1, 2-D temperature   -> `np.reshape(rad, (shape[0], shape[1], radshape[1]))`. -/
def bbReturn (wavnum : List ℝ) (shape : List ℕ) (rad : List (List MVal)) : BBOut :=
  if wavnum.length = 1 then
    if shape.headI = 1 then BBOut.scalar rad.headI.headI
    else if shape.length = 1 then BBOut.arr1 (rad.map List.headI)
    else BBOut.arr2 (takeChunks shape.headI shape.tail.headI (rad.map List.headI))
  else
    if shape.headI = 1 then BBOut.arr1 rad.headI
    else if shape.length = 1 then BBOut.arr2 rad
    else BBOut.arr3 (takeChunks shape.headI shape.tail.headI rad)

/-- `blackbody_wn(wavenumber, temp)`: Planck radiation as a function of
wavenumber (SI units). -/
def blackbody_wn (wavenumber : SpecInput) (temp : TempInput) : BBOut :=
  bbReturn (coerceSpec wavenumber) (tempShape temp)
    (radGridWn (tempFlat temp) (coerceSpec wavenumber))

/-- `blackbody(wavel, temp)`: Planck radiation as a function of wavelength
(SI units). -/
def blackbody (wavel : SpecInput) (temp : TempInput) : BBOut :=
  bbReturn (coerceSpec wavel) (tempShape temp)
    (radGridWl (tempFlat temp) (coerceSpec wavel))

/-- The trigger of the dubious-value diagnostic in `blackbody`
(`if exp_arg.min() < 0:`): some unmasked entry of the `exp_arg` grid is
negative.  (`exp_arg.min()` skips masked entries of the masked array.) -/
def hasDubious (wavel : SpecInput) (temp : TempInput) : Prop :=
  ∃ t ∈ tempFlat temp, ∃ lam ∈ coerceSpec wavel,
    arg2fun t ≠ -9 ∧ arg1Wl lam * arg2fun t < 0

/-- The reported count `np.where(exp_arg < 0)[0].shape[0]` in `blackbody`.
Single-argument `np.where` is `np.asarray(condition).nonzero()`, which drops
the mask of the comparison array, so the count ranges over the raw `exp_arg`
data in row-major order: at a masked position the raw value is
`arg1 * arg2`-data with `arg2`-data equal to the sentinel `-9`, and such a
position is included in the count whenever that raw product is negative. -/
def dubiousCount (wavel : SpecInput) (temp : TempInput) : ℕ :=
  ((tempFlat temp).map fun t =>
    (coerceSpec wavel).countP fun lam =>
      decide (arg1Wl lam * arg2fun t < 0)).sum

/-- The count as claim C6 words it ("the count of such dubious entries"):
the number of broadcast positions whose computed — that is, unmasked —
exponent argument is negative.  Defined from the claim's words, to be
compared with the source-faithful `dubiousCount`. -/
def computedNegCount (wavel : SpecInput) (temp : TempInput) : ℕ :=
  ((tempFlat temp).map fun t =>
    (coerceSpec wavel).countP fun lam =>
      decide (arg2fun t ≠ -9 ∧ arg1Wl lam * arg2fun t < 0)).sum

/-- The diagnostics channel of `blackbody` (`LOG.warning` with the number of
dubious items): a count is reported exactly when `exp_arg.min() < 0`, and
`MaskedArray.min` skips masked entries, so the trigger is mask-aware even
though the reported count is not. -/
def dubiousReport (wavel : SpecInput) (temp : TempInput) : Option ℕ :=
  if hasDubious wavel temp then some (dubiousCount wavel temp) else none

/-- Shape (list of axis lengths) of a returned value: `[]` for a scalar. -/
def shapeOf : BBOut → List ℕ
  | .scalar _ => []
  | .arr1 xs => [xs.length]
  | .arr2 xss => [xss.length, xss.headI.length]
  | .arr3 xsss => [xsss.length, xsss.headI.length, xsss.headI.headI.length]

/-- Well-formed spectral input: a sequence input is nonempty. -/
def SpecWF : SpecInput → Prop
  | .scalar _ => True
  | .vec xs => xs ≠ []

/-- Well-formed temperature input: nonempty, and a 2-D grid is rectangular
with nonempty rows. -/
def TempWF : TempInput → Prop
  | .scalar _ => True
  | .vec xs => xs ≠ []
  | .mat xss => xss ≠ [] ∧ xss.headI ≠ [] ∧ ∀ row ∈ xss, row.length = xss.headI.length

/-- The shape law the code actually implements, keyed on the coerced lengths:
the spectral input counts as scalar-like iff its coerced length `s` is 1, the
temperature input counts as scalar-like iff the first axis of its coerced
shape is 1. -/
def dispatchShape (s : ℕ) (tshape : List ℕ) : List ℕ :=
  if tshape.headI = 1 then (if s = 1 then [] else [s])
  else (if s = 1 then tshape else tshape ++ [s])

/-- The shape law as the claim words it: keyed on the original (pre-coercion)
scalar-ness of each input, where `s` is the coerced spectral length and
`tshape` the coerced temperature shape. -/
def claimShape (wScalar : Bool) (s : ℕ) (tScalar : Bool) (tshape : List ℕ) : List ℕ :=
  if wScalar then (if tScalar then [] else tshape)
  else (if tScalar then [s] else tshape ++ [s])

end

/-! Helper lemmas about the constants, the sentinel and single grid entries. -/

lemma H_pos : 0 < H_PLANCK := by norm_num [H_PLANCK]

lemma K_pos : 0 < K_BOLTZMANN := by norm_num [K_BOLTZMANN]

lemma C_pos : 0 < C_SPEED := by norm_num [C_SPEED]

lemma EPS_pos : 0 < EPSILON := by norm_num [EPSILON]

lemma ne_zero_of_eps_lt_abs {t : ℝ} (h : EPSILON < |t|) : t ≠ 0 := by
  intro h0
  rw [h0, abs_zero] at h
  exact absurd h (not_lt.mpr EPS_pos.le)

lemma arg2fun_of_eps_lt_abs {t : ℝ} (h : EPSILON < |t|) : arg2fun t = 1 / t :=
  if_pos h

lemma arg2fun_ne_sentinel {t : ℝ} (h : EPSILON < |t|) (h9 : t ≠ -(1/9)) :
    arg2fun t ≠ -9 := by
  rw [arg2fun_of_eps_lt_abs h]
  intro hc
  apply h9
  have ht0 : t ≠ 0 := ne_zero_of_eps_lt_abs h
  field_simp at hc
  linarith

lemma arg2fun_eq_sentinel_iff {t : ℝ} : arg2fun t = -9 ↔ |t| ≤ EPSILON ∨ t = -(1/9) := by
  by_cases h : EPSILON < |t|
  · rw [arg2fun_of_eps_lt_abs h]
    have ht0 : t ≠ 0 := ne_zero_of_eps_lt_abs h
    constructor
    · intro hc
      right
      field_simp at hc
      linarith
    · rintro (hle | rfl)
      · exact absurd hle (not_le.mpr h)
      · norm_num
  · rw [arg2fun, if_neg h]
    exact iff_of_true rfl (Or.inl (not_lt.mp h))

lemma radEntryWn_masked_iff {t nu : ℝ} :
    radEntryWn t nu = MVal.masked ↔ arg2fun t = -9 := by
  by_cases h : arg2fun t = -9 <;> simp [radEntryWn, h]

lemma radEntryWl_masked_iff {t lam : ℝ} :
    radEntryWl t lam = MVal.masked ↔ arg2fun t = -9 := by
  by_cases h : arg2fun t = -9 <;> simp [radEntryWl, h]

lemma radEntryWn_masked_of_abs_le {t : ℝ} (nu : ℝ) (h : |t| ≤ EPSILON) :
    radEntryWn t nu = MVal.masked :=
  radEntryWn_masked_iff.mpr (arg2fun_eq_sentinel_iff.mpr (Or.inl h))

lemma radEntryWl_masked_of_abs_le {t : ℝ} (lam : ℝ) (h : |t| ≤ EPSILON) :
    radEntryWl t lam = MVal.masked :=
  radEntryWl_masked_iff.mpr (arg2fun_eq_sentinel_iff.mpr (Or.inl h))

lemma radEntryWn_eq {t : ℝ} (nu : ℝ) (h : EPSILON < |t|) (h9 : t ≠ -(1/9)) :
    radEntryWn t nu = MVal.val (2 * H_PLANCK * C_SPEED ^ 2 * nu ^ 3 /
      (Real.exp (H_PLANCK * C_SPEED * nu / (K_BOLTZMANN * t)) - 1)) := by
  rw [radEntryWn, if_neg (arg2fun_ne_sentinel h h9), arg2fun_of_eps_lt_abs h,
    nomWn, arg1Wn, div_mul_div_comm, mul_one]

lemma radEntryWl_eq {t : ℝ} (lam : ℝ) (h : EPSILON < |t|) (h9 : t ≠ -(1/9)) :
    radEntryWl t lam = MVal.val (2 * H_PLANCK * C_SPEED ^ 2 / lam ^ 5 /
      (Real.exp (H_PLANCK * C_SPEED / (K_BOLTZMANN * lam * t)) - 1)) := by
  rw [radEntryWl, if_neg (arg2fun_ne_sentinel h h9), arg2fun_of_eps_lt_abs h,
    nomWl, arg1Wl, div_mul_div_comm, mul_one]

lemma eps_lt_abs_of_eps_lt {t : ℝ} (h : EPSILON < t) : EPSILON < |t| := by
  rwa [abs_of_pos (EPS_pos.trans h)]

lemma ne_neg_ninth_of_eps_lt {t : ℝ} (h : EPSILON < t) : t ≠ -(1/9) := by
  intro hc
  rw [hc] at h
  norm_num [EPSILON] at h

/-- Claim C2, counterexample: the claim quantifies over every pair with
`|T| > EPSILON`, but at `T = -1/9` (where `|T| = 1/9 > EPSILON`) the computed
reciprocal `1/T = -9` collides with the mask sentinel, so `blackbody_wn`
returns a masked entry instead of the Planck formula value. -/
theorem c2_sentinel_collision_cex :
    EPSILON < |(-(1/9) : ℝ)| ∧
    blackbody_wn (SpecInput.scalar 1) (TempInput.scalar (-(1/9))) =
      BBOut.scalar MVal.masked ∧
    ∀ x : ℝ, BBOut.scalar MVal.masked ≠ BBOut.scalar (MVal.val x) := by
  refine ⟨?_, ?_, fun x h => by simp at h⟩
  · rw [abs_neg, abs_of_nonneg (by norm_num : (0:ℝ) ≤ 1/9)]
    norm_num [EPSILON]
  · show BBOut.scalar (radEntryWn (-(1/9)) 1) = BBOut.scalar MVal.masked
    rw [radEntryWn_masked_iff.mpr (arg2fun_eq_sentinel_iff.mpr (Or.inr rfl))]

/-- Claim C2 (amended): for every broadcast pair `(nu, T)` with
`|T| > EPSILON` and `T ≠ -1/9` (the temperature whose reciprocal collides
with the mask sentinel `-9`), the grid entry of `blackbody_wn` — hence, for
scalar inputs, the returned scalar — is the unmasked value
`2*h*c^2*nu^3 / (exp(h*c*nu / (k*T)) - 1)`. -/
theorem c2_planck_wn_formula (nu T : ℝ) (hT : EPSILON < |T|) (h9 : T ≠ -(1/9)) :
    radEntryWn T nu = MVal.val (2 * H_PLANCK * C_SPEED ^ 2 * nu ^ 3 /
      (Real.exp (H_PLANCK * C_SPEED * nu / (K_BOLTZMANN * T)) - 1)) ∧
    blackbody_wn (SpecInput.scalar nu) (TempInput.scalar T) =
      BBOut.scalar (MVal.val (2 * H_PLANCK * C_SPEED ^ 2 * nu ^ 3 /
        (Real.exp (H_PLANCK * C_SPEED * nu / (K_BOLTZMANN * T)) - 1))) := by
  refine ⟨radEntryWn_eq nu hT h9, ?_⟩
  show BBOut.scalar (radEntryWn T nu) = _
  rw [radEntryWn_eq nu hT h9]

/-- Claim C2, witness: the amended theorem applied at `nu = 1`, `T = 300`. -/
theorem c2_planck_wn_formula_witness :
    radEntryWn 300 1 = MVal.val (2 * H_PLANCK * C_SPEED ^ 2 * 1 ^ 3 /
      (Real.exp (H_PLANCK * C_SPEED * 1 / (K_BOLTZMANN * 300)) - 1)) ∧
    blackbody_wn (SpecInput.scalar 1) (TempInput.scalar 300) =
      BBOut.scalar (MVal.val (2 * H_PLANCK * C_SPEED ^ 2 * 1 ^ 3 /
        (Real.exp (H_PLANCK * C_SPEED * 1 / (K_BOLTZMANN * 300)) - 1))) :=
  c2_planck_wn_formula 1 300
    (by rw [abs_of_pos (by norm_num : (0:ℝ) < 300)]; norm_num [EPSILON])
    (by norm_num)

/-- Claim C3, counterexample: as for the wavenumber variant, at `T = -1/9`
(where `|T| > EPSILON`) the reciprocal collides with the sentinel `-9` and
`blackbody` returns a masked entry instead of the Planck formula value. -/
theorem c3_sentinel_collision_cex :
    EPSILON < |(-(1/9) : ℝ)| ∧
    blackbody (SpecInput.scalar 1) (TempInput.scalar (-(1/9))) =
      BBOut.scalar MVal.masked ∧
    ∀ x : ℝ, BBOut.scalar MVal.masked ≠ BBOut.scalar (MVal.val x) := by
  refine ⟨?_, ?_, fun x h => by simp at h⟩
  · rw [abs_neg, abs_of_nonneg (by norm_num : (0:ℝ) ≤ 1/9)]
    norm_num [EPSILON]
  · show BBOut.scalar (radEntryWl (-(1/9)) 1) = BBOut.scalar MVal.masked
    rw [radEntryWl_masked_iff.mpr (arg2fun_eq_sentinel_iff.mpr (Or.inr rfl))]

/-- Claim C3 (amended): for every broadcast pair `(lam, T)` with
`|T| > EPSILON` and `T ≠ -1/9`, the grid entry of `blackbody` — hence, for
scalar inputs, the returned scalar — is the unmasked value
`2*h*c^2 / lam^5 / (exp(h*c / (k*lam*T)) - 1)`. -/
theorem c3_planck_wl_formula (lam T : ℝ) (hT : EPSILON < |T|) (h9 : T ≠ -(1/9)) :
    radEntryWl T lam = MVal.val (2 * H_PLANCK * C_SPEED ^ 2 / lam ^ 5 /
      (Real.exp (H_PLANCK * C_SPEED / (K_BOLTZMANN * lam * T)) - 1)) ∧
    blackbody (SpecInput.scalar lam) (TempInput.scalar T) =
      BBOut.scalar (MVal.val (2 * H_PLANCK * C_SPEED ^ 2 / lam ^ 5 /
        (Real.exp (H_PLANCK * C_SPEED / (K_BOLTZMANN * lam * T)) - 1))) := by
  refine ⟨radEntryWl_eq lam hT h9, ?_⟩
  show BBOut.scalar (radEntryWl T lam) = _
  rw [radEntryWl_eq lam hT h9]

/-- Claim C3, witness: the amended theorem applied at `lam = 1`, `T = 300`. -/
theorem c3_planck_wl_formula_witness :
    radEntryWl 300 1 = MVal.val (2 * H_PLANCK * C_SPEED ^ 2 / 1 ^ 5 /
      (Real.exp (H_PLANCK * C_SPEED / (K_BOLTZMANN * 1 * 300)) - 1)) ∧
    blackbody (SpecInput.scalar 1) (TempInput.scalar 300) =
      BBOut.scalar (MVal.val (2 * H_PLANCK * C_SPEED ^ 2 / 1 ^ 5 /
        (Real.exp (H_PLANCK * C_SPEED / (K_BOLTZMANN * 1 * 300)) - 1))) :=
  c3_planck_wl_formula 1 300
    (by rw [abs_of_pos (by norm_num : (0:ℝ) < 300)]; norm_num [EPSILON])
    (by norm_num)

/-- Claim C4, counterexample: with temperatures `[0, -1/9]` and a scalar
wavenumber, the guarded position (`T = 0`) is masked as claimed, but the
other position of the broadcast set, whose temperature satisfies
`|T| > EPSILON`, is also masked (sentinel collision) rather than a normal
computed result. -/
theorem c4_other_position_cex :
    |(0 : ℝ)| ≤ EPSILON ∧ EPSILON < |(-(1/9) : ℝ)| ∧
    blackbody_wn (SpecInput.scalar 1) (TempInput.vec [0, -(1/9)]) =
      BBOut.arr1 [MVal.masked, MVal.masked] := by
  refine ⟨by norm_num [EPSILON], ?_, ?_⟩
  · rw [abs_neg, abs_of_nonneg (by norm_num : (0:ℝ) ≤ 1/9)]
    norm_num [EPSILON]
  · show BBOut.arr1 [radEntryWn 0 1, radEntryWn (-(1/9)) 1] = _
    rw [radEntryWn_masked_of_abs_le 1 (by norm_num [EPSILON]),
      radEntryWn_masked_iff.mpr (arg2fun_eq_sentinel_iff.mpr (Or.inr rfl))]

/-- Claim C4 (amended): in both operations every entry whose temperature
satisfies `|t| ≤ EPSILON` yields a masked output at that position (no
exception is raised: the functions are total), and the computation is
elementwise, so every other position whose temperature `u` has
`|u| > EPSILON` and `u ≠ -1/9` (the sentinel collision) still yields a
normal computed value. -/
theorem c4_near_zero_guard (nu lam t u : ℝ) (ht : |t| ≤ EPSILON)
    (hu : EPSILON < |u|) (hu9 : u ≠ -(1/9)) :
    radEntryWn t nu = MVal.masked ∧ radEntryWl t lam = MVal.masked ∧
    (∃ v, radEntryWn u nu = MVal.val v) ∧ (∃ v, radEntryWl u lam = MVal.val v) :=
  ⟨radEntryWn_masked_of_abs_le nu ht, radEntryWl_masked_of_abs_le lam ht,
    ⟨_, radEntryWn_eq nu hu hu9⟩, ⟨_, radEntryWl_eq lam hu hu9⟩⟩

/-- Claim C4, witness: the amended theorem applied at `nu = lam = 1`,
`t = 0`, `u = 300`. -/
theorem c4_near_zero_guard_witness :
    radEntryWn 0 1 = MVal.masked ∧ radEntryWl 0 1 = MVal.masked ∧
    (∃ v, radEntryWn 300 1 = MVal.val v) ∧ (∃ v, radEntryWl 300 1 = MVal.val v) :=
  c4_near_zero_guard 1 1 0 300 (by norm_num [EPSILON])
    (by rw [abs_of_pos (by norm_num : (0:ℝ) < 300)]; norm_num [EPSILON])
    (by norm_num)

/-- Claim C5, counterexample: the claim asserts that the sentinel never
collides with a legitimate reciprocal temperature and that `T = -1/9`
produces a computed, unmasked value; in fact both operations return a masked
entry at `T = -1/9` although `|T| > EPSILON`. -/
theorem c5_collision_cex :
    EPSILON < |(-(1/9) : ℝ)| ∧
    blackbody_wn (SpecInput.scalar 2) (TempInput.scalar (-(1/9))) =
      BBOut.scalar MVal.masked ∧
    blackbody (SpecInput.scalar 2) (TempInput.scalar (-(1/9))) =
      BBOut.scalar MVal.masked := by
  refine ⟨?_, ?_, ?_⟩
  · rw [abs_neg, abs_of_nonneg (by norm_num : (0:ℝ) ≤ 1/9)]
    norm_num [EPSILON]
  · show BBOut.scalar (radEntryWn (-(1/9)) 2) = _
    rw [radEntryWn_masked_iff.mpr (arg2fun_eq_sentinel_iff.mpr (Or.inr rfl))]
  · show BBOut.scalar (radEntryWl (-(1/9)) 2) = _
    rw [radEntryWl_masked_iff.mpr (arg2fun_eq_sentinel_iff.mpr (Or.inr rfl))]

/-- Claim C5 (amended): an entry of either operation is masked if and only
if its temperature satisfies `|t| ≤ EPSILON` or `t = -1/9`: the sentinel
`-9` does collide with the legitimate reciprocal of `t = -1/9`, which is
therefore masked despite `|t| > EPSILON`. -/
theorem c5_mask_iff (t nu lam : ℝ) :
    (radEntryWn t nu = MVal.masked ↔ |t| ≤ EPSILON ∨ t = -(1/9)) ∧
    (radEntryWl t lam = MVal.masked ↔ |t| ≤ EPSILON ∨ t = -(1/9)) :=
  ⟨radEntryWn_masked_iff.trans arg2fun_eq_sentinel_iff,
    radEntryWl_masked_iff.trans arg2fun_eq_sentinel_iff⟩

/-- Claim C8: for a matched pair `(nu, lam = 1/nu)` and equal temperature
`T > EPSILON`, the radiance by wavenumber equals the radiance by wavelength
divided by `nu^2` (the Jacobian relation); exact equality in the real-number
model, which subsumes the claim's floating-point tolerance. -/
theorem c8_jacobian (nu T : ℝ) (hT : EPSILON < T) :
    ∃ vwn vwl : ℝ,
      blackbody_wn (SpecInput.scalar nu) (TempInput.scalar T) =
        BBOut.scalar (MVal.val vwn) ∧
      blackbody (SpecInput.scalar (1 / nu)) (TempInput.scalar T) =
        BBOut.scalar (MVal.val vwl) ∧
      vwn = vwl / nu ^ 2 := by
  have habs : EPSILON < |T| := eps_lt_abs_of_eps_lt hT
  have h9 : T ≠ -(1/9) := ne_neg_ninth_of_eps_lt hT
  have hTpos : 0 < T := EPS_pos.trans hT
  have h1 : blackbody_wn (SpecInput.scalar nu) (TempInput.scalar T) =
      BBOut.scalar (radEntryWn T nu) := rfl
  have h2 : blackbody (SpecInput.scalar (1 / nu)) (TempInput.scalar T) =
      BBOut.scalar (radEntryWl T (1 / nu)) := rfl
  rw [h1, h2, radEntryWn_eq nu habs h9, radEntryWl_eq (1/nu) habs h9]
  refine ⟨_, _, rfl, rfl, ?_⟩
  rcases eq_or_ne nu 0 with rfl | hnu
  · norm_num
  · have hK : K_BOLTZMANN ≠ 0 := K_pos.ne'
    have hT0 : T ≠ 0 := hTpos.ne'
    have hE : H_PLANCK * C_SPEED / (K_BOLTZMANN * (1 / nu) * T) =
        H_PLANCK * C_SPEED * nu / (K_BOLTZMANN * T) := by
      field_simp
    have hnom : (2 * H_PLANCK * C_SPEED ^ 2 / (1 / nu) ^ 5) =
        2 * H_PLANCK * C_SPEED ^ 2 * nu ^ 3 * nu ^ 2 := by
      rw [div_pow, one_pow, div_div_eq_mul_div, div_one]
      ring
    rw [hE, hnom, div_div, mul_div_mul_right _ _ (pow_ne_zero 2 hnu)]

/-- Claim C8, witness: the theorem applied at `nu = 1`, `T = 300`. -/
theorem c8_jacobian_witness :
    ∃ vwn vwl : ℝ,
      blackbody_wn (SpecInput.scalar 1) (TempInput.scalar 300) =
        BBOut.scalar (MVal.val vwn) ∧
      blackbody (SpecInput.scalar (1 / 1)) (TempInput.scalar 300) =
        BBOut.scalar (MVal.val vwl) ∧
      vwn = vwl / 1 ^ 2 :=
  c8_jacobian 1 300 (by norm_num [EPSILON])

/-- Claim C9: for positive wavenumber `nu` (rsp. wavelength `lam`) and
temperature `T > EPSILON`, both operations return a strictly positive,
unmasked radiance. -/
theorem c9_positive (nu lam T : ℝ) (hnu : 0 < nu) (hlam : 0 < lam)
    (hT : EPSILON < T) :
    (∃ v, blackbody_wn (SpecInput.scalar nu) (TempInput.scalar T) =
        BBOut.scalar (MVal.val v) ∧ 0 < v) ∧
    (∃ v, blackbody (SpecInput.scalar lam) (TempInput.scalar T) =
        BBOut.scalar (MVal.val v) ∧ 0 < v) := by
  have habs : EPSILON < |T| := eps_lt_abs_of_eps_lt hT
  have h9 : T ≠ -(1/9) := ne_neg_ninth_of_eps_lt hT
  have hTpos : 0 < T := EPS_pos.trans hT
  have ewn : blackbody_wn (SpecInput.scalar nu) (TempInput.scalar T) =
      BBOut.scalar (radEntryWn T nu) := rfl
  have ewl : blackbody (SpecInput.scalar lam) (TempInput.scalar T) =
      BBOut.scalar (radEntryWl T lam) := rfl
  rw [ewn, ewl, radEntryWn_eq nu habs h9, radEntryWl_eq lam habs h9]
  constructor
  · refine ⟨_, rfl, div_pos ?_ ?_⟩
    · exact mul_pos (mul_pos (mul_pos two_pos H_pos) (pow_pos C_pos 2)) (pow_pos hnu 3)
    · refine sub_pos.mpr (Real.one_lt_exp_iff.mpr ?_)
      exact div_pos (mul_pos (mul_pos H_pos C_pos) hnu) (mul_pos K_pos hTpos)
  · refine ⟨_, rfl, div_pos ?_ ?_⟩
    · exact div_pos (mul_pos (mul_pos two_pos H_pos) (pow_pos C_pos 2)) (pow_pos hlam 5)
    · refine sub_pos.mpr (Real.one_lt_exp_iff.mpr ?_)
      exact div_pos (mul_pos H_pos C_pos) (mul_pos (mul_pos K_pos hlam) hTpos)

/-- Claim C9, witness: the theorem applied at `nu = lam = 1`, `T = 300`. -/
theorem c9_positive_witness :
    (∃ v, blackbody_wn (SpecInput.scalar 1) (TempInput.scalar 300) =
        BBOut.scalar (MVal.val v) ∧ 0 < v) ∧
    (∃ v, blackbody (SpecInput.scalar 1) (TempInput.scalar 300) =
        BBOut.scalar (MVal.val v) ∧ 0 < v) :=
  c9_positive 1 1 300 (by norm_num) (by norm_num) (by norm_num [EPSILON])

/-- Claim C10, counterexample: the claim quantifies over all
`0 < T1 < T2`, but for `T1 = 1e-7` (which is positive yet below the
`EPSILON` guard) `blackbody_wn` returns a masked entry, not a radiance
value, so the claimed strict inequality between returned values fails. -/
theorem c10_masked_below_eps_cex :
    (0 : ℝ) < 1e-7 ∧ (1e-7 : ℝ) < 300 ∧
    blackbody_wn (SpecInput.scalar 1) (TempInput.scalar 1e-7) =
      BBOut.scalar MVal.masked ∧
    ¬ ∃ v1 v2 : ℝ,
        blackbody_wn (SpecInput.scalar 1) (TempInput.scalar 1e-7) =
          BBOut.scalar (MVal.val v1) ∧
        blackbody_wn (SpecInput.scalar 1) (TempInput.scalar 300) =
          BBOut.scalar (MVal.val v2) ∧
        v1 < v2 := by
  have hmask : blackbody_wn (SpecInput.scalar 1) (TempInput.scalar 1e-7) =
      BBOut.scalar MVal.masked := by
    show BBOut.scalar (radEntryWn 1e-7 1) = _
    rw [radEntryWn_masked_of_abs_le 1
      (by rw [abs_of_pos (by norm_num : (0:ℝ) < 1e-7)]; norm_num [EPSILON])]
  refine ⟨by norm_num, by norm_num, hmask, ?_⟩
  rintro ⟨v1, v2, hv1, _, _⟩
  rw [hmask] at hv1
  simp at hv1

/-- Claim C10 (amended): for fixed positive wavenumber `nu`,
`blackbody_wn(nu, T)` is strictly increasing in `T` on the unmasked range
`T > EPSILON` (for `0 < T ≤ EPSILON` the output is masked, so the claimed
inequality over all of `T > 0` cannot hold). -/
theorem c10_monotone (nu T1 T2 : ℝ) (hnu : 0 < nu) (h1 : EPSILON < T1)
    (h12 : T1 < T2) :
    ∃ v1 v2 : ℝ,
      blackbody_wn (SpecInput.scalar nu) (TempInput.scalar T1) =
        BBOut.scalar (MVal.val v1) ∧
      blackbody_wn (SpecInput.scalar nu) (TempInput.scalar T2) =
        BBOut.scalar (MVal.val v2) ∧
      v1 < v2 := by
  have h2 : EPSILON < T2 := h1.trans h12
  have hp1 : 0 < T1 := EPS_pos.trans h1
  have hp2 : 0 < T2 := EPS_pos.trans h2
  have e1 : blackbody_wn (SpecInput.scalar nu) (TempInput.scalar T1) =
      BBOut.scalar (radEntryWn T1 nu) := rfl
  have e2 : blackbody_wn (SpecInput.scalar nu) (TempInput.scalar T2) =
      BBOut.scalar (radEntryWn T2 nu) := rfl
  rw [e1, e2, radEntryWn_eq nu (eps_lt_abs_of_eps_lt h1) (ne_neg_ninth_of_eps_lt h1),
    radEntryWn_eq nu (eps_lt_abs_of_eps_lt h2) (ne_neg_ninth_of_eps_lt h2)]
  refine ⟨_, _, rfl, rfl, ?_⟩
  have hM : 0 < H_PLANCK * C_SPEED * nu := mul_pos (mul_pos H_pos C_pos) hnu
  have hEdec : H_PLANCK * C_SPEED * nu / (K_BOLTZMANN * T2) <
      H_PLANCK * C_SPEED * nu / (K_BOLTZMANN * T1) :=
    div_lt_div_of_pos_left hM (mul_pos K_pos hp1)
      (mul_lt_mul_of_pos_left h12 K_pos)
  have hd2 : 0 < Real.exp (H_PLANCK * C_SPEED * nu / (K_BOLTZMANN * T2)) - 1 :=
    sub_pos.mpr (Real.one_lt_exp_iff.mpr (div_pos hM (mul_pos K_pos hp2)))
  have hdlt : Real.exp (H_PLANCK * C_SPEED * nu / (K_BOLTZMANN * T2)) - 1 <
      Real.exp (H_PLANCK * C_SPEED * nu / (K_BOLTZMANN * T1)) - 1 :=
    sub_lt_sub_right (Real.exp_lt_exp.mpr hEdec) 1
  exact div_lt_div_of_pos_left
    (mul_pos (mul_pos (mul_pos two_pos H_pos) (pow_pos C_pos 2)) (pow_pos hnu 3))
    hd2 hdlt

/-- Claim C10, witness: the amended theorem applied at `nu = 1`,
`T1 = 300 < T2 = 301`. -/
theorem c10_monotone_witness :
    ∃ v1 v2 : ℝ,
      blackbody_wn (SpecInput.scalar 1) (TempInput.scalar 300) =
        BBOut.scalar (MVal.val v1) ∧
      blackbody_wn (SpecInput.scalar 1) (TempInput.scalar 301) =
        BBOut.scalar (MVal.val v2) ∧
      v1 < v2 :=
  c10_monotone 1 300 301 (by norm_num) (by norm_num [EPSILON]) (by norm_num)

/-! Helper lemmas for the shape dispatch. -/

lemma takeChunks_length (a b : ℕ) (xs : List α) : (takeChunks a b xs).length = a := by
  induction a generalizing xs with
  | zero => rfl
  | succ a ih => simp [takeChunks, ih]

lemma takeChunks_headI [Inhabited α] (a b : ℕ) (ha : a ≠ 0) (xs : List α) :
    (takeChunks a b xs).headI = xs.take b := by
  cases a with
  | zero => exact absurd rfl ha
  | succ a => rfl

lemma headI_take [Inhabited α] {xs : List α} {m : ℕ} (hm : m ≠ 0) :
    (xs.take m).headI = xs.headI := by
  cases xs with
  | nil => simp
  | cons x l =>
    cases m with
    | zero => exact absurd rfl hm
    | succ m => simp

lemma headI_mem [Inhabited α] {xs : List α} (h : xs ≠ []) : xs.headI ∈ xs := by
  cases xs with
  | nil => exact absurd rfl h
  | cons x l => simp

lemma length_flatten_rect {xss : List (List ℝ)} {b : ℕ}
    (h : ∀ row ∈ xss, row.length = b) : xss.flatten.length = xss.length * b := by
  induction xss with
  | nil => simp
  | cons r l ih =>
    simp only [List.flatten_cons, List.length_append, List.length_cons]
    rw [h r (by simp), ih fun row hr => h row (by simp [hr]), Nat.succ_mul, Nat.add_comm]

lemma shapeOf_bbReturn (temp : TempInput) (ht : TempWF temp) (wavnum : List ℝ)
    (rad : List (List MVal))
    (hlen : rad.length = (tempFlat temp).length)
    (hrow : ∀ row ∈ rad, row.length = wavnum.length) :
    shapeOf (bbReturn wavnum (tempShape temp) rad) =
      dispatchShape wavnum.length (tempShape temp) := by
  cases temp with
  | scalar x =>
    simp only [tempFlat, List.length_cons, List.length_nil] at hlen
    obtain ⟨row, rfl⟩ := List.length_eq_one.mp hlen
    by_cases hS : wavnum.length = 1
    · simp [bbReturn, tempShape, dispatchShape, hS, shapeOf]
    · simp [bbReturn, tempShape, dispatchShape, hS, shapeOf, hrow row (by simp)]
  | vec xs =>
    have hn : xs.length ≠ 0 := fun h => ht (List.length_eq_zero.mp h)
    simp only [tempFlat] at hlen
    by_cases hS : wavnum.length = 1 <;> by_cases h1 : xs.length = 1
    · simp [bbReturn, tempShape, dispatchShape, hS, h1, shapeOf]
    · simp [bbReturn, tempShape, dispatchShape, hS, h1, shapeOf, hlen]
    · obtain ⟨row, rfl⟩ := List.length_eq_one.mp (hlen.trans h1)
      simp [bbReturn, tempShape, dispatchShape, hS, h1, shapeOf, hrow row (by simp)]
    · have hne : rad ≠ [] := by
        intro h
        rw [h] at hlen
        exact hn (by simpa using hlen.symm)
      simp [bbReturn, tempShape, dispatchShape, hS, h1, shapeOf, hlen,
        hrow _ (headI_mem hne)]
  | mat xss =>
    obtain ⟨hne, hrne, hrect⟩ := ht
    have ha : xss.length ≠ 0 := fun h => hne (List.length_eq_zero.mp h)
    have hb : xss.headI.length ≠ 0 := fun h => hrne (List.length_eq_zero.mp h)
    have hflat : xss.flatten.length = xss.length * xss.headI.length :=
      length_flatten_rect hrect
    simp only [tempFlat, hflat] at hlen
    have hble : xss.headI.length ≤ xss.length * xss.headI.length :=
      Nat.le_mul_of_pos_left _ (Nat.pos_of_ne_zero ha)
    by_cases hS : wavnum.length = 1 <;> by_cases h1 : xss.length = 1
    · simp [bbReturn, tempShape, dispatchShape, hS, h1, shapeOf]
    · simp [bbReturn, tempShape, dispatchShape, hS, h1, shapeOf,
        takeChunks_length, takeChunks_headI _ _ ha, hlen,
        Nat.min_eq_left hble]
    · have hradlen : rad.length = xss.headI.length := by
        rw [hlen, h1, Nat.one_mul]
      have hne2 : rad ≠ [] := by
        intro h
        rw [h] at hradlen
        exact hb (by simpa using hradlen.symm)
      simp [bbReturn, tempShape, dispatchShape, hS, h1, shapeOf,
        hrow _ (headI_mem hne2)]
    · have hne2 : rad ≠ [] := by
        intro h
        rw [h] at hlen
        exact Nat.mul_ne_zero ha hb (by simpa using hlen.symm)
      simp [bbReturn, tempShape, dispatchShape, hS, h1, shapeOf,
        takeChunks_length, takeChunks_headI _ _ ha, hlen,
        Nat.min_eq_left hble, headI_take hb, hrow _ (headI_mem hne2)]

lemma radGridWn_length (ts nus : List ℝ) : (radGridWn ts nus).length = ts.length := by
  simp [radGridWn]

lemma radGridWn_rows (ts nus : List ℝ) :
    ∀ row ∈ radGridWn ts nus, row.length = nus.length := by
  intro row hr
  simp only [radGridWn, List.mem_map] at hr
  obtain ⟨t, _, rfl⟩ := hr
  simp

lemma radGridWl_length (ts lams : List ℝ) : (radGridWl ts lams).length = ts.length := by
  simp [radGridWl]

lemma radGridWl_rows (ts lams : List ℝ) :
    ∀ row ∈ radGridWl ts lams, row.length = lams.length := by
  intro row hr
  simp only [radGridWl, List.mem_map] at hr
  obtain ⟨t, _, rfl⟩ := hr
  simp

/-- Claim C1, counterexample: the claim keys scalar-ness on the original
(pre-coercion) inputs, predicting shape `(1, 2)` for a 1-element temperature
sequence with a 2-element wavenumber sequence; the code keys on the coerced
first-axis length (`temperature.shape[0] == 1`) and returns a 1-D length-2
array instead. -/
theorem c1_original_scalarness_cex :
    shapeOf (blackbody_wn (SpecInput.vec [2, 3]) (TempInput.vec [300])) = [2] ∧
    claimShape false 2 false [1] = [1, 2] ∧ ([2] : List ℕ) ≠ [1, 2] :=
  ⟨rfl, rfl, by decide⟩

/-- Claim C1 (amended): for well-formed inputs, the result shape of both
operations is `dispatchShape`, which keys on the coerced lengths: the
spectral input counts as scalar iff its coerced length is 1, and the
temperature input counts as scalar iff the first axis of its coerced shape
is 1 (not on the original scalar-ness of the inputs); in the non-degenerate
cases the dispatch agrees with the claim's table. -/
theorem c1_shape (w : SpecInput) (t : TempInput) (ht : TempWF t) :
    shapeOf (blackbody_wn w t) = dispatchShape (coerceSpec w).length (tempShape t) ∧
    shapeOf (blackbody w t) = dispatchShape (coerceSpec w).length (tempShape t) :=
  ⟨shapeOf_bbReturn t ht (coerceSpec w) _ (radGridWn_length _ _) (radGridWn_rows _ _),
    shapeOf_bbReturn t ht (coerceSpec w) _ (radGridWl_length _ _) (radGridWl_rows _ _)⟩

/-- Claim C1, witness: the amended theorem applied to a 2-element wavenumber
sequence and a 2-by-2 temperature grid (result shape `(2, 2, 2)`). -/
theorem c1_shape_witness :
    shapeOf (blackbody_wn (SpecInput.vec [1, 2]) (TempInput.mat [[300, 301], [302, 303]])) =
      dispatchShape 2 [2, 2] ∧
    shapeOf (blackbody (SpecInput.vec [1, 2]) (TempInput.mat [[300, 301], [302, 303]])) =
      dispatchShape 2 [2, 2] :=
  c1_shape (SpecInput.vec [1, 2]) (TempInput.mat [[300, 301], [302, 303]])
    (by simp [TempWF])

lemma sum_map_le_sum_map {l : List α} {f g : α → ℕ} (h : ∀ a ∈ l, f a ≤ g a) :
    (l.map f).sum ≤ (l.map g).sum := by
  induction l with
  | nil => simp
  | cons a l ih =>
    simp only [List.map_cons, List.sum_cons]
    exact Nat.add_le_add (h a (by simp)) (ih fun b hb => h b (by simp [hb]))

lemma arg1Wl_one_pos : 0 < arg1Wl 1 := by
  rw [arg1Wl]
  exact div_pos (mul_pos H_pos C_pos) (mul_pos K_pos one_pos)

lemma arg2fun_neg300 : arg2fun (-300) = 1 / (-300 : ℝ) :=
  arg2fun_of_eps_lt_abs (by
    rw [abs_neg, abs_of_nonneg (by norm_num : (0:ℝ) ≤ 300)]
    norm_num [EPSILON])

lemma arg2fun_zero : arg2fun 0 = -9 := by
  rw [arg2fun, if_neg]
  rw [abs_zero]
  exact not_lt.mpr EPS_pos.le

lemma expArg_neg300_neg : arg1Wl 1 * arg2fun (-300) < 0 := by
  rw [arg2fun_neg300, show ((1:ℝ) / (-300)) = -(1/300) by norm_num]
  exact mul_neg_of_pos_of_neg arg1Wl_one_pos (by norm_num)

lemma expArg_zero_raw_neg : arg1Wl 1 * arg2fun 0 < 0 := by
  rw [arg2fun_zero]
  exact mul_neg_of_pos_of_neg arg1Wl_one_pos (by norm_num)

lemma arg2fun_neg300_ne_sentinel : arg2fun (-300) ≠ -9 := by
  rw [arg2fun_neg300]
  norm_num

/-- Claim C6, counterexample: with wavelength `[1.0]` and temperatures
`[-300, 0]`, some computed exponent argument is negative, so the diagnostic
fires — but the logged count is 2, not the count 1 of dubious computed
entries: `np.where` drops the mask, so the masked `T = 0` position, whose
raw exponent data `arg1 * (-9)` is negative, is counted as well. -/
theorem c6_masked_count_cex :
    hasDubious (SpecInput.scalar 1) (TempInput.vec [-300, 0]) ∧
    dubiousReport (SpecInput.scalar 1) (TempInput.vec [-300, 0]) = some 2 ∧
    computedNegCount (SpecInput.scalar 1) (TempInput.vec [-300, 0]) = 1 ∧
    (2 : ℕ) ≠ 1 := by
  have hdub : hasDubious (SpecInput.scalar 1) (TempInput.vec [-300, 0]) :=
    ⟨-300, by simp [tempFlat], 1, by simp [coerceSpec],
      arg2fun_neg300_ne_sentinel, expArg_neg300_neg⟩
  refine ⟨hdub, ?_, ?_, by decide⟩
  · rw [dubiousReport, if_pos hdub]
    simp [dubiousCount, tempFlat, coerceSpec, expArg_neg300_neg, expArg_zero_raw_neg]
  · simp [computedNegCount, tempFlat, coerceSpec, expArg_neg300_neg,
      arg2fun_neg300_ne_sentinel, arg2fun_zero]

/-- Claim C6 (amended): whenever some computed (unmasked) exponent argument
of `blackbody` is negative, the diagnostics channel reports a positive count
and the returned radiance is still the normal dispatch of the unmodified
grid — the condition neither aborts the call (all model functions are total)
nor alters the returned values; but the reported count is the number of
positions whose raw exponent data is negative, masked positions included,
so it is an upper bound on — not always equal to — the number of dubious
computed entries. -/
theorem c6_dubious_report (w : SpecInput) (t : TempInput) (h : hasDubious w t) :
    dubiousReport w t = some (dubiousCount w t) ∧ 0 < dubiousCount w t ∧
    computedNegCount w t ≤ dubiousCount w t ∧
    blackbody w t =
      bbReturn (coerceSpec w) (tempShape t) (radGridWl (tempFlat t) (coerceSpec w)) := by
  refine ⟨if_pos h, ?_, ?_, rfl⟩
  · obtain ⟨t0, ht0, lam0, hlam0, hP⟩ := h
    have hcount : 0 < (coerceSpec w).countP fun lam =>
        decide (arg1Wl lam * arg2fun t0 < 0) := by
      rw [List.countP_pos_iff]
      refine ⟨lam0, hlam0, ?_⟩
      simp only [decide_eq_true_eq]
      exact hP.2
    refine lt_of_lt_of_le hcount (List.le_sum_of_mem ?_)
    exact List.mem_map_of_mem _ ht0
  · refine sum_map_le_sum_map fun a _ => ?_
    refine List.countP_mono_left fun lam _ hq => ?_
    simp only [decide_eq_true_eq] at hq ⊢
    exact hq.2

/-- Claim C6, witness: the amended theorem applied at `lam = 1`, `T = -300`,
whose exponent argument is negative. -/
theorem c6_dubious_report_witness :
    dubiousReport (SpecInput.scalar 1) (TempInput.scalar (-300)) =
      some (dubiousCount (SpecInput.scalar 1) (TempInput.scalar (-300))) ∧
    0 < dubiousCount (SpecInput.scalar 1) (TempInput.scalar (-300)) ∧
    computedNegCount (SpecInput.scalar 1) (TempInput.scalar (-300)) ≤
      dubiousCount (SpecInput.scalar 1) (TempInput.scalar (-300)) ∧
    blackbody (SpecInput.scalar 1) (TempInput.scalar (-300)) =
      bbReturn (coerceSpec (SpecInput.scalar 1)) (tempShape (TempInput.scalar (-300)))
        (radGridWl (tempFlat (TempInput.scalar (-300))) (coerceSpec (SpecInput.scalar 1))) :=
  c6_dubious_report _ _ ⟨-300, by simp [tempFlat], 1, by simp [coerceSpec],
    arg2fun_neg300_ne_sentinel, expArg_neg300_neg⟩

end Pyspectral
